import Mathlib

/-!
Verification of the CBDC_tracker core components: a shallow embedding of
`src/services/relevance_service.py` (dual-provider relevance classifier) and
`src/utils.py` (incremental deduplicated CSV ledger), with theorems settling
the specification claims about them.

Python dynamic values are modelled by the inductive `PyVal`; machine-level
details kept: Python truthiness, `dict.get` defaults, string sentinels.
Floats appear only as JSON numbers that the code copies around, never
computes with; they are modelled as rationals.
-/

/-- A Python/JSON value as manipulated by the service code. -/
inductive PyVal where
  | pnull : PyVal
  | pbool : Bool → PyVal
  | pnum : ℚ → PyVal
  | pstr : String → PyVal
  | plist : List PyVal → PyVal
  | pdict : List (String × PyVal) → PyVal

/-- A parsed JSON object: an association list of fields (later bindings win,
as in a Python dict built by the parser). -/
abbrev Obj := List (String × PyVal)

/-- Python truthiness of a value (`bool(v)`). -/
def PyVal.truthy : PyVal → Bool
  | .pnull => false
  | .pbool b => b
  | .pnum q => decide (q ≠ 0)
  | .pstr s => decide (s ≠ "")
  | .plist xs => !xs.isEmpty
  | .pdict xs => !xs.isEmpty

/-- `d[k]` lookup with Python-dict semantics: the last binding of a key wins. -/
def dictGet (d : Obj) (k : String) : Option PyVal :=
  (d.reverse.find? (fun e => e.1 == k)).map (·.2)

/-- `d.get(k, default)`. -/
def pyGet (d : Obj) (k : String) (default : PyVal) : PyVal :=
  (dictGet d k).getD default

/-- Python regex `\s` character class (also used for `str.strip`). -/
def pyWhitespace (c : Char) : Bool :=
  c == ' ' || c == '\t' || c == '\n' || c == '\r' || c == '\x0b' || c == '\x0c' ||
  c == '\x1c' || c == '\x1d' || c == '\x1e' || c == '\x1f' || c == '\x85' ||
  c == ' ' || c == ' ' ||
  (0x2000 ≤ c.toNat && c.toNat ≤ 0x200a) ||
  c == ' ' || c == ' ' || c == ' ' || c == ' ' || c == '　'

/-- `str.strip()` on a character list: drop whitespace from both ends. -/
def pyStrip (l : List Char) : List Char :=
  (((l.dropWhile pyWhitespace).reverse.dropWhile pyWhitespace)).reverse

/-- `str.strip()` on a string. -/
def pyStripStr (s : String) : String := ⟨pyStrip s.data⟩

/-- Index of the last occurrence of `c` in `l` (meaningful when `c ∈ l`). -/
def lastIdxOf (c : Char) (l : List Char) : Nat :=
  l.length - 1 - l.reverse.findIdx (· == c)

/-- `re.search(r"\{.*\}", text, re.DOTALL)`: the greedy match runs from the
first `'{'` that has some `'}'` after it up to the last `'}'` of the text;
if there is no such pair the text is returned unchanged (no match). -/
def braceExtract (l : List Char) : List Char :=
  if l.contains '}' then
    let j := lastIdxOf '}' l
    match (l.take j).findIdx? (· == '{') with
    | some i => (l.take (j + 1)).drop i
    | none => l
  else l

/-- JSON whitespace accepted by `json.loads` between tokens. -/
def jsonWs (c : Char) : Bool :=
  c == ' ' || c == '\t' || c == '\n' || c == '\r'

def isJsonDigit (c : Char) : Bool := '0' ≤ c && c ≤ '9'

def digitVal (c : Char) : Nat := c.toNat - '0'.toNat

def digitsToNat (l : List Char) : Nat :=
  l.foldl (fun acc c => acc * 10 + digitVal c) 0

/-- Parse the JSON number grammar `-?(0|[1-9][0-9]*)(\.[0-9]+)?([eE][+-]?[0-9]+)?`
at the head of `l`; the value is returned as a rational (the code only ever
copies these values, so exact arithmetic is a faithful model). -/
def parseJNum (l : List Char) : Except String (PyVal × List Char) :=
  let (neg, l1) := match l with
    | '-' :: rest => (true, rest)
    | _ => (false, l)
  let intDigits := l1.takeWhile isJsonDigit
  let l2 := l1.drop intDigits.length
  if intDigits.isEmpty then .error "Expecting value" else
  if intDigits.length > 1 && intDigits.head? == some '0' then .error "Expecting value" else
  let (fracDigits, l3) := match l2 with
    | '.' :: rest =>
      let ds := rest.takeWhile isJsonDigit
      (ds, rest.drop ds.length)
    | _ => ([], l2)
  if l2.head? == some '.' && fracDigits.isEmpty then .error "Expecting value" else
  let (hasExp, expNeg, expDigits, l4) := match l3 with
    | 'e' :: rest | 'E' :: rest =>
      let (en, rest') := match rest with
        | '+' :: r => (false, r)
        | '-' :: r => (true, r)
        | _ => (false, rest)
      let ds := rest'.takeWhile isJsonDigit
      (true, en, ds, rest'.drop ds.length)
    | _ => (false, false, ([] : List Char), l3)
  if hasExp && expDigits.isEmpty then .error "Expecting value" else
  let mantissa : ℚ := (digitsToNat (intDigits ++ fracDigits) : ℚ) /
    ((10 : ℚ) ^ fracDigits.length)
  let e : ℤ := if expNeg then -(digitsToNat expDigits : ℤ) else (digitsToNat expDigits : ℤ)
  let q : ℚ := mantissa * (10 : ℚ) ^ e
  .ok (.pnum (if neg then -q else q), l4)

/-- Parse a JSON string body (after the opening quote), handling escapes.
Fuel-indexed so that the recursion is structural and kernel-reducible. -/
def parseJStr (fuel : Nat) (l : List Char) (acc : List Char) :
    Except String (String × List Char) :=
  match fuel with
  | 0 => .error "Unterminated string"
  | fuel + 1 =>
    match l with
    | [] => .error "Unterminated string"
    | '"' :: rest => .ok (⟨acc.reverse⟩, rest)
    | '\\' :: esc :: rest =>
      if esc == 'u' then
        match rest with
        | a :: b :: c :: d :: rest' =>
          let hexVal (x : Char) : Option Nat :=
            if '0' ≤ x && x ≤ '9' then some (x.toNat - '0'.toNat)
            else if 'a' ≤ x && x ≤ 'f' then some (x.toNat - 'a'.toNat + 10)
            else if 'A' ≤ x && x ≤ 'F' then some (x.toNat - 'A'.toNat + 10)
            else none
          match hexVal a, hexVal b, hexVal c, hexVal d with
          | some ha, some hb, some hc, some hd =>
            let n := ((ha * 16 + hb) * 16 + hc) * 16 + hd
            parseJStr fuel rest' (Char.ofNat n :: acc)
          | _, _, _, _ => .error "Invalid \\uXXXX escape"
        | _ => .error "Invalid \\uXXXX escape"
      else
        let decoded : Option Char :=
          if esc == '"' then some '"'
          else if esc == '\\' then some '\\'
          else if esc == '/' then some '/'
          else if esc == 'b' then some '\x08'
          else if esc == 'f' then some '\x0c'
          else if esc == 'n' then some '\n'
          else if esc == 'r' then some '\r'
          else if esc == 't' then some '\t'
          else none
        match decoded with
        | some ch => parseJStr fuel rest (ch :: acc)
        | none => .error "Invalid escape"
    | c :: rest =>
      if c.toNat < 0x20 then .error "Invalid control character"
      else parseJStr fuel rest (c :: acc)

/-- One pass of the array-element loop of the JSON parser: parse elements
separated by `','` until `']'`. The value parser is passed in as `pv` so the
recursion stays structural in `fuel`. -/
def parseJItems (pv : List Char → Except String (PyVal × List Char))
    (fuel : Nat) (l : List Char) (acc : List PyVal) :
    Except String (PyVal × List Char) :=
  match fuel with
  | 0 => .error "depth"
  | fuel + 1 =>
    match pv l with
    | .error e => .error e
    | .ok (v, rest) =>
      let rest := rest.dropWhile jsonWs
      match rest with
      | ']' :: rest' => .ok (.plist (acc ++ [v]), rest')
      | ',' :: rest' => parseJItems pv fuel rest' (acc ++ [v])
      | _ => .error "Expecting comma delimiter"

/-- One pass of the object-member loop of the JSON parser: parse
`"key": value` pairs separated by `','` until `'}'`. -/
def parseJMembers (pv : List Char → Except String (PyVal × List Char))
    (fuel : Nat) (l : List Char) (acc : List (String × PyVal)) :
    Except String (PyVal × List Char) :=
  match fuel with
  | 0 => .error "depth"
  | fuel + 1 =>
    let l := l.dropWhile jsonWs
    match l with
    | '"' :: rest =>
      match parseJStr (rest.length + 1) rest [] with
      | .error e => .error e
      | .ok (key, rest') =>
        match rest'.dropWhile jsonWs with
        | ':' :: rest'' =>
          match pv rest'' with
          | .error e => .error e
          | .ok (v, rest3) =>
            let rest3 := rest3.dropWhile jsonWs
            match rest3 with
            | '}' :: rest4 => .ok (.pdict (acc ++ [(key, v)]), rest4)
            | ',' :: rest4 => parseJMembers pv fuel rest4 (acc ++ [(key, v)])
            | _ => .error "Expecting comma delimiter"
        | _ => .error "Expecting colon delimiter"
    | _ => .error "Expecting property name"

/-- Fuel-indexed JSON value parser mirroring `json.loads` (objects, arrays,
strings, numbers, `true`/`false`/`null`).  Python's `NaN`/`Infinity` literal
extension is not modelled — the repository's providers never emit it and no
claim touches it. -/
def parseJVal : Nat → List Char → Except String (PyVal × List Char)
  | 0, _ => .error "depth"
  | fuel + 1, l =>
    let l := l.dropWhile jsonWs
    match l with
    | [] => .error "Expecting value"
    | c :: rest =>
      if c == '{' then
        match rest.dropWhile jsonWs with
        | '}' :: rest' => .ok (.pdict [], rest')
        | _ => parseJMembers (parseJVal fuel) (rest.length + 1) rest []
      else if c == '[' then
        match rest.dropWhile jsonWs with
        | ']' :: rest' => .ok (.plist [], rest')
        | _ => parseJItems (parseJVal fuel) (rest.length + 1) rest []
      else if c == '"' then
        match parseJStr (rest.length + 1) rest [] with
        | .error e => .error e
        | .ok (s, rest') => .ok (.pstr s, rest')
      else if l.take 4 == "true".data then .ok (.pbool true, l.drop 4)
      else if l.take 5 == "false".data then .ok (.pbool false, l.drop 5)
      else if l.take 4 == "null".data then .ok (.pnull, l.drop 4)
      else parseJNum l

/-- `json.loads` on a character list: parse one value and require only
whitespace to remain (otherwise "Extra data"). -/
def jsonLoads (l : List Char) : Except String PyVal :=
  match parseJVal (l.length + 1) l with
  | .error e => .error e
  | .ok (v, rest) =>
    if (rest.dropWhile jsonWs).isEmpty then .ok v else .error "Extra data"

/-! ## `RelevanceService` (src/services/relevance_service.py) -/

/-- `RelevanceService._parse_json` step 1: `text.strip()`, then removal of a
leading ```` ```json ```` fence (`text[7:]`) and a trailing ```` ``` ````
fence (`text[:-3]`), then the greedy `\{.*\}` extraction. -/
def prepareText (text : String) : List Char :=
  let t := pyStrip text.data
  let t := if List.isPrefixOf "```json".data t then t.drop 7 else t
  let t := if List.isSuffixOf "```".data t then t.take (t.length - 3) else t
  braceExtract t

/-- `RelevanceService._parse_json`: `None` for empty input, fence/prose
tolerant extraction, `json.loads`, and `None` unless the parsed value is a
dict; any parse exception is caught and yields `None`. -/
def parse_json (text : String) : Option Obj :=
  if text == "" then none
  else
    match jsonLoads (prepareText text) with
    | .ok (.pdict d) => some d
    | _ => none

/-- `RelevanceService.KEYWORDS_CBDC`. -/
def KEYWORDS_CBDC : List String :=
  ["cbdc", "central bank digital currency", "digital currency", "digital euro",
   "digital dollar", "e-cny", "digital yuan", "digital pound", "digital rupee",
   "digital ruble", "digital real", "digital won", "tokenized deposit",
   "rln", "regulated liability network", "wholesale cbdc", "retail cbdc",
   "stablecoin", "crypto asset", "ledger technology", "dlt", "blockchain"]

/-- Python substring test `needle in hay`. -/
def listHasInfix (needle : List Char) : List Char → Bool
  | [] => needle.isEmpty
  | c :: rest => List.isPrefixOf needle (c :: rest) || listHasInfix needle rest

/-- `str.lower()`.  Only ASCII case folding is modelled (every configured
keyword is pure lowercase ASCII, so this matches Python on the alphabet the
prefilter can ever react to). -/
def pyLower (s : String) : String := ⟨s.data.map Char.toLower⟩

/-- `(str(title) + " " + str(abstract) + " " + str(content)).lower()`. -/
def fullTextOf (title abstract content : String) : String :=
  pyLower (title ++ " " ++ abstract ++ " " ++ content)

/-- `any(k in full_text for k in self.KEYWORDS_CBDC)`. -/
def keywordHit (title abstract content : String) : Bool :=
  KEYWORDS_CBDC.any (fun k => listHasInfix k.data (fullTextOf title abstract content).data)

/-- The prompt built for both providers (f-string at lines 78–99; literal
braces written via `\x7b`/`\x7d`). -/
def buildPrompt (title abstract content : String) : String :=
  "\n        你是一位服务于人民银行总行的资深金融情报分析师。请对以下金融资讯进行深度研判，判断是否涉及央行数字货币(CBDC)领域。\n\n        【资讯内容】\n        Title: " ++ title ++
  "\n        Abstract: " ++ abstract ++
  "\n        Content Sample: " ++ (⟨content.data.take 1000⟩ : String) ++
  "\n        \n        【研判标准】\n        1. 核心相关性：是否明确提及CBDC (如数字人民币/e-CNY、数字欧元、数字美元等)、数字货币政策框架、法律监管或技术基础设施(DLT/RLN/Tokenized Deposits)。\n        2. 排除标准：仅提及加密货币(如比特币)价格波动、一般性货币供应数据、传统银行人事变动或非CBDC相关的反洗钱/数字信贷业务。\n\n        【输出要求】\n        请返回且仅返回一个标准 JSON 对象（不要包含Markdown代码块）：\n        \x7b\x7b\n            \"is_relevant\": true/false,\n            \"confidence_score\": 0.95,\n            \"title_cn\": \"中文标题（请按正式公文风格翻译，准确简练）\",\n            \"summary\": \"中文摘要（请按《金融时报》或政府内参简报风格撰写。使用第三人称，客观陈述事实，避免使用\x27本文\x27、\x27我\x27等主观词汇。重点提炼政策动向、核心观点或关键数据。字数控制在200-300字。）\",\n            \"reasoning\": \"研判依据（简明扼要，<30字）\"\n        \x7d\x7d\n        "

/-- `RelevanceService._call_model` for one provider: a `None` reply from the
client means the connection/API failed; otherwise the raw text is parsed.
The provider client is an oracle `String → Option String`
(`chat_completion` returns text or `None`). -/
def call_model (client : String → Option String) (prompt : String) :
    Option Obj × Bool :=
  match client prompt with
  | none => (none, false)
  | some raw => (parse_json raw, true)

/-- One per-provider entry of the `details` map of the result. -/
structure Detail where
  rel : PyVal
  reason : PyVal
  status : String

/-- Python truthiness of an `Optional[Dict]` (`None` and `{}` are falsy). -/
def objTruthy : Option Obj → Bool
  | none => false
  | some d => !d.isEmpty

/-- Per-provider status block (lines 120–142): `error` when the connection
failed, `parse_error` when text came back but no (non-empty) object parsed,
`success` otherwise, with the object's own fields copied in. -/
def detailOf (success : Bool) (res : Option Obj) : Detail :=
  if !success then ⟨.pnull, .pstr "Connection Failed", "error"⟩
  else if !objTruthy res then ⟨.pnull, .pstr "Parse Error", "parse_error"⟩
  else
    let d := res.getD []
    ⟨(dictGet d "is_relevant").getD .pnull, pyGet d "reasoning" (.pstr ""), "success"⟩

/-- `zai_res.get("is_relevant", False) if zai_res else False` (line 159/160). -/
def relContrib (res : Option Obj) : PyVal :=
  if objTruthy res then pyGet (res.getD []) "is_relevant" (.pbool false)
  else .pbool false

/-- Python `or`: the first operand if truthy, else the second. -/
def pyOr (a b : PyVal) : PyVal := if a.truthy then a else b

/-- `best_res` selection (lines 164–175): a successful provider asserting
relevance wins, Z.AI before OpenRouter; otherwise any successful provider,
Z.AI before OpenRouter; otherwise `{}`. -/
def pickBest (zres ores : Option Obj) : Obj :=
  if objTruthy zres && (relContrib zres).truthy then zres.getD []
  else if objTruthy ores && (relContrib ores).truthy then ores.getD []
  else if objTruthy zres then zres.getD []
  else if objTruthy ores then ores.getD []
  else []

/-- The dictionary returned by `assess_relevance`; `alert_needed = none`
models the branch that omits the key entirely (Python readers use
`result.get("alert_needed")`, so an absent key reads as falsy). -/
structure AssessResult where
  is_relevant : PyVal
  reasoning : PyVal
  confidence : PyVal
  title_cn : PyVal
  summary : PyVal
  zaiDetail : Detail
  orDetail : Detail
  alert_needed : Option Bool

/-- `RelevanceService.assess_relevance`, with the two provider clients as
oracles.  Besides the result dictionary it returns how many times each
client was invoked (the thread pool submits exactly one call per provider
and waits for both, so invocation counts are deterministic). -/
def assess_relevance (zaiClient orClient : String → Option String)
    (title abstract content : String) : AssessResult × Nat × Nat :=
  if !keywordHit title abstract content then
    ({ is_relevant := .pbool false
       reasoning := .pstr "关键词不匹配 (No Keywords)"
       confidence := .pnum 0
       title_cn := .pstr title
       summary := .pstr ""
       zaiDetail := ⟨.pbool false, .pstr "Skipped (Keyword)", "skipped"⟩
       orDetail := ⟨.pbool false, .pstr "Skipped (Keyword)", "skipped"⟩
       alert_needed := none }, 0, 0)
  else
    let prompt := buildPrompt title abstract content
    let zcall := call_model zaiClient prompt
    let ocall := call_model orClient prompt
    let zres := zcall.1
    let zsucc := zcall.2
    let ores := ocall.1
    let osucc := ocall.2
    let zdet := detailOf zsucc zres
    let odet := detailOf osucc ores
    if !zsucc && !osucc then
      ({ is_relevant := .pstr "ERROR"
         reasoning := .pstr "双路API调用均失败 (Connection Error)"
         confidence := .pnum 0
         title_cn := .pstr title
         summary := .pstr ""
         zaiDetail := zdet
         orDetail := odet
         alert_needed := some true }, 1, 1)
    else
      let best := pickBest zres ores
      ({ is_relevant := pyOr (relContrib zres) (relContrib ores)
         confidence := pyGet best "confidence_score" (.pnum 0)
         title_cn := pyGet best "title_cn" (.pstr title)
         summary := pyGet best "summary" (.pstr "")
         reasoning := pyGet best "reasoning" (.pstr "")
         zaiDetail := zdet
         orDetail := odet
         alert_needed := some false }, 1, 1)

/-! ## Utilities (src/utils.py) -/

/-- The zero-width / separator controls removed by `sanitize_text`
(`[​‌‍  ]+` → `" "`). -/
def zeroWidthChar (c : Char) : Bool :=
  c == '​' || c == '‌' || c == '‍' || c == ' ' || c == ' '

/-- Scanner for `re.sub` of `[chars]+` by one replacement character:
`inRun` records whether the previous character was part of the current
matched run (in which case further run characters are absorbed). -/
def replaceRunsGo (p : Char → Bool) (r : Char) (inRun : Bool) : List Char → List Char
  | [] => []
  | c :: cs =>
    if p c then
      if inRun then replaceRunsGo p r true cs
      else r :: replaceRunsGo p r true cs
    else c :: replaceRunsGo p r false cs

/-- `re.sub` of `[chars]+` by a single replacement character: each maximal
run of characters satisfying `p` becomes one `r`. -/
def replaceRuns (p : Char → Bool) (r : Char) (l : List Char) : List Char :=
  replaceRunsGo p r false l

/-- `s.replace("\r\n", "\n")`. -/
def replaceCRLF : List Char → List Char
  | '\r' :: '\n' :: rest => '\n' :: replaceCRLF rest
  | c :: rest => c :: replaceCRLF rest
  | [] => []

/-- Fuel-indexed scanner for `re.sub(r"\n\s*\n+", "\n\n", s)`: the greedy
match starts at a `'\n'` whose following whitespace run contains another
`'\n'` and extends to the last `'\n'` of that run; it is replaced by
exactly two newlines and scanning resumes after the match.  Every step
consumes at least one character, so `fuel = length` suffices. -/
def collapseBlankLinesGo (fuel : Nat) (l : List Char) : List Char :=
  match fuel, l with
  | _, [] => []
  | 0, l => l
  | fuel + 1, c :: rest =>
    if c == '\n' && (rest.takeWhile pyWhitespace).contains '\n' then
      '\n' :: '\n' ::
        collapseBlankLinesGo fuel (rest.drop (lastIdxOf '\n' (rest.takeWhile pyWhitespace) + 1))
    else c :: collapseBlankLinesGo fuel rest

/-- `re.sub(r"\n\s*\n+", "\n\n", s)` (see `collapseBlankLinesGo`). -/
def collapseBlankLines (l : List Char) : List Char :=
  collapseBlankLinesGo l.length l

/-- `sanitize_text` from `src/utils.py`: remove zero-width controls; in
one-line mode collapse `[\r\n\t]+` then all whitespace runs to single
spaces and strip; in multi-line mode normalize CR/LF, collapse blank-line
runs to one empty line, and strip. -/
def sanitize_text (s : String) (one_line : Bool) : String :=
  let l := replaceRuns zeroWidthChar ' ' s.data
  if one_line then
    let l := replaceRuns (fun c => c == '\r' || c == '\n' || c == '\t') ' ' l
    let l := replaceRuns pyWhitespace ' ' l
    ⟨pyStrip l⟩
  else
    let l := replaceCRLF l
    let l := l.map (fun c => if c == '\r' then '\n' else c)
    ⟨pyStrip (collapseBlankLines l)⟩

/-- UTF-8 encoding of one character (code point → 1–4 bytes). -/
def utf8Bytes (c : Char) : List Nat :=
  let n := c.toNat
  if n < 0x80 then [n]
  else if n < 0x800 then
    [0xC0 ||| (n >>> 6), 0x80 ||| (n &&& 0x3F)]
  else if n < 0x10000 then
    [0xE0 ||| (n >>> 12), 0x80 ||| ((n >>> 6) &&& 0x3F), 0x80 ||| (n &&& 0x3F)]
  else
    [0xF0 ||| (n >>> 18), 0x80 ||| ((n >>> 12) &&& 0x3F),
     0x80 ||| ((n >>> 6) &&& 0x3F), 0x80 ||| (n &&& 0x3F)]

/-- `s.encode("utf-8")` as a byte list. -/
def strBytes (s : String) : List Nat :=
  s.data.foldr (fun c acc => utf8Bytes c ++ acc) []

/-- 32-bit right rotation on `Nat % 2^32`. -/
def rotr32 (n x : Nat) : Nat := ((x >>> n) ||| (x <<< (32 - n))) % 4294967296

def sha256K : List Nat :=
  [1116352408, 1899447441, 3049323471, 3921009573, 961987163, 1508970993,
   2453635748, 2870763221, 3624381080, 310598401, 607225278, 1426881987,
   1925078388, 2162078206, 2614888103, 3248222580, 3835390401, 4022224774,
   264347078, 604807628, 770255983, 1249150122, 1555081692, 1996064986,
   2554220882, 2821834349, 2952996808, 3210313671, 3336571891, 3584528711,
   113926993, 338241895, 666307205, 773529912, 1294757372, 1396182291,
   1695183700, 1986661051, 2177026350, 2456956037, 2730485921, 2820302411,
   3259730800, 3345764771, 3516065817, 3600352804, 4094571909, 275423344,
   430227734, 506948616, 659060556, 883997877, 958139571, 1322822218,
   1537002063, 1747873779, 1955562222, 2024104815, 2227730452, 2361852424,
   2428436474, 2756734187, 3204031479, 3329325298]

def sha256H0 : List Nat :=
  [1779033703, 3144134277, 1013904242, 2773480762, 1359893119, 2600822924,
   528734635, 1541459225]

/-- SHA-256 padding: append `0x80`, zeros to 56 mod 64, and the 64-bit
big-endian bit length. -/
def sha256pad (msg : List Nat) : List Nat :=
  let L := msg.length
  let k := (119 - L % 64) % 64
  let bitLen := 8 * L
  msg ++ [0x80] ++ List.replicate k 0 ++
    ((List.range 8).map (fun i => (bitLen >>> (8 * (7 - i))) % 256))

/-- Big-endian 32-bit words from a byte list. -/
def bytesToWords : List Nat → List Nat
  | b0 :: b1 :: b2 :: b3 :: rest =>
    (((b0 * 256 + b1) * 256 + b2) * 256 + b3) :: bytesToWords rest
  | _ => []

/-- Message-schedule extension of one 16-word chunk to 64 words. -/
def sha256Schedule (w16 : List Nat) : List Nat :=
  (List.range 48).foldl
    (fun w _ =>
      let n := w.length
      let x15 := w.getD (n - 15) 0
      let x2 := w.getD (n - 2) 0
      let s0 := (rotr32 7 x15) ^^^ (rotr32 18 x15) ^^^ (x15 >>> 3)
      let s1 := (rotr32 17 x2) ^^^ (rotr32 19 x2) ^^^ (x2 >>> 10)
      w ++ [(w.getD (n - 16) 0 + s0 + w.getD (n - 7) 0 + s1) % 4294967296])
    w16

/-- One SHA-256 compression round. -/
def sha256Round (st : List Nat) (kw : Nat × Nat) : List Nat :=
  match st with
  | [a, b, c, d, e, f, g, h] =>
    let S1 := (rotr32 6 e) ^^^ (rotr32 11 e) ^^^ (rotr32 25 e)
    let ch := (e &&& f) ^^^ ((4294967295 - e) &&& g)
    let temp1 := (h + S1 + ch + kw.1 + kw.2) % 4294967296
    let S0 := (rotr32 2 a) ^^^ (rotr32 13 a) ^^^ (rotr32 22 a)
    let maj := (a &&& b) ^^^ (a &&& c) ^^^ (b &&& c)
    let temp2 := (S0 + maj) % 4294967296
    [(temp1 + temp2) % 4294967296, a, b, c, (d + temp1) % 4294967296, e, f, g]
  | st => st

/-- Process the padded byte stream chunk by chunk. -/
def sha256Chunks (h : List Nat) : List Nat → List Nat
  | [] => h
  | b :: rest =>
    let chunk := (b :: rest).take 64
    let w := sha256Schedule (bytesToWords chunk)
    let st := (sha256K.zip w).foldl sha256Round h
    let h' := (h.zip st).map (fun p => (p.1 + p.2) % 4294967296)
    sha256Chunks h' ((b :: rest).drop 64)
termination_by l => l.length
decreasing_by
  simp only [List.length_drop, List.length_cons]
  omega

def hexDigit (n : Nat) : Char :=
  if n < 10 then Char.ofNat ('0'.toNat + n) else Char.ofNat ('a'.toNat + n - 10)

def toHexWord (x : Nat) : List Char :=
  (List.range 8).map (fun i => hexDigit ((x >>> (4 * (7 - i))) % 16))

/-- `hashlib.sha256(raw).hexdigest()` over a byte list. -/
def sha256hex (msg : List Nat) : String :=
  ⟨(sha256Chunks sha256H0 (sha256pad msg)).foldr (fun w acc => toHexWord w ++ acc) []⟩

/-- The string hashed by `make_uid`: `f"{source}|{url}"`. -/
def uidRaw (source url : String) : String := source ++ "|" ++ url

/-- `make_uid(source, url)`: SHA-256 hex digest of the UTF-8 encoding of
`f"{source}|{url}"`. -/
def make_uid (source url : String) : String :=
  sha256hex (strBytes (uidRaw source url))

/-- `STANDARD_FIELDS` from `src/utils.py`. -/
def STANDARD_FIELDS : List String :=
  ["uid", "source", "entity", "category", "published_at", "title", "url",
   "abstract", "content", "content_type", "crawl_time", "is_relevant"]

/-- A `pathlib.Path` as used by the writer: directory, stem and suffix.
`with_name(stem + "_v2" + suffix)` acts on the stem only. -/
structure CsvPath where
  dir : String
  stem : String
  sfx : String
deriving DecidableEq

/-- `all_csv.with_name(all_csv.stem + "_v2" + all_csv.suffix)`. -/
def withV2 (p : CsvPath) : CsvPath := { p with stem := p.stem ++ "_v2" }

/-- A CSV file at the abstraction level of the `csv` module: a list of
records, each a list of fields.  `QUOTE_ALL` quoting makes this round-trip
faithful.  An absent file is `none`; a zero-byte file is `some []`. -/
abbrev CsvFile := List (List String)

/-- The filesystem visible to the writer: a map from paths to CSV files. -/
structure FS where
  files : List (CsvPath × CsvFile)

/-- Read a file (`none` when it does not exist). -/
def FS.read (fs : FS) (p : CsvPath) : Option CsvFile :=
  (fs.files.find? (fun e => e.1 == p)).map (·.2)

/-- Write (create or replace) a file. -/
def FS.write (fs : FS) (p : CsvPath) (content : CsvFile) : FS :=
  ⟨(p, content) :: fs.files.filter (fun e => !(e.1 == p))⟩

/-- `csv.DictReader` row lookup: the row dict maps each header name to the
field at its position (`None` — here `none` — when the row is short or the
header lacks the key). -/
def strZipGet (header row : List String) (k : String) : Option String :=
  ((header.zip row).find? (fun e => e.1 == k)).map (·.2)

/-- `(row.get(k) or "").strip()`. -/
def stripField (header row : List String) (k : String) : String :=
  pyStripStr ((strZipGet header row k).getD "")

/-- The per-row body of the `load_existing_keys` loop: add the stripped
non-empty uid and url of one record to the accumulated key sets. -/
def loadKeysStep (has_uid : Bool) (url_field : Option String)
    (header row : List String) (acc : List String × List String) :
    List String × List String :=
  let acc1 :=
    if has_uid then
      let uid := stripField header row "uid"
      if uid ≠ "" then (uid :: acc.1, acc.2) else acc
    else acc
  match url_field with
  | some uf =>
    let url := stripField header row uf
    if url ≠ "" then (acc1.1, url :: acc1.2) else acc1
  | none => acc1

/-- `load_existing_keys`: collect the non-empty stripped `uid`s and urls
(`url`, falling back to `link`) of an existing CSV.  Sets are modelled as
lists with membership semantics. -/
def load_existing_keys (file : Option CsvFile) : List String × List String :=
  match file with
  | none => ([], [])
  | some [] => ([], [])
  | some (header :: dataRows) =>
    let has_uid := header.contains "uid"
    let url_field : Option String :=
      if header.contains "url" then some "url"
      else if header.contains "link" then some "link" else none
    dataRows.foldr (loadKeysStep has_uid url_field header) ([], [])

/-- `_read_header`: the first record of an existing, non-empty file. -/
def read_header (file : Option CsvFile) : Option (List String) :=
  match file with
  | none => none
  | some [] => none
  | some (h :: _) => some h

/-- `validate_csv_format`: `False` for a missing file, `True` for an empty
one, otherwise every record (header included) must have exactly the
expected number of columns. -/
def validate_csv_format (file : Option CsvFile) (expected_fields : List String) : Bool :=
  match file with
  | none => false
  | some [] => true
  | some (header :: dataRows) =>
    header.length == expected_fields.length &&
      dataRows.all (fun r => r.length == expected_fields.length)

/-- An input row (`Dict[str, str]`): keys are unique, so first-match lookup
is Python `r.get(k, "")`. -/
abbrev StrRow := List (String × String)

def rowGet (r : StrRow) (k : String) : String :=
  ((r.find? (fun e => e.1 == k)).map (·.2)).getD ""

/-- The per-row normalization of `write_incremental_csv` (lines 177–186):
every standard field present, multi-line text fields keep newlines, all
other fields are single-line sanitized. -/
def cleanRow (fields : List String) (r : StrRow) : StrRow :=
  fields.map (fun k =>
    let val := rowGet r k
    if k == "content" || k == "abstract" || k == "title" then (k, sanitize_text val false)
    else (k, sanitize_text val true))

/-- The (sanitized) uid of a candidate row under a field schema. -/
def rowUid (fields : List String) (r : StrRow) : String :=
  rowGet (cleanRow fields r) "uid"

/-- The (sanitized) url of a candidate row under a field schema. -/
def rowUrl (fields : List String) (r : StrRow) : String :=
  rowGet (cleanRow fields r) "url"

/-- The dedupe filter of `write_incremental_csv` (lines 174–201): drop rows
whose key already exists, and extend the in-memory key sets with each
accepted row so in-batch duplicates are caught too. -/
def filterRows (fields : List String) (dedupe_by : String) :
    List StrRow → List String → List String → List StrRow
  | [], _, _ => []
  | r :: rest, uids, urls =>
    let c := cleanRow fields r
    let uid := rowGet c "uid"
    let url := rowGet c "url"
    if dedupe_by == "uid" && uid ≠ "" && uids.contains uid then
      filterRows fields dedupe_by rest uids urls
    else if dedupe_by == "url" && url ≠ "" && urls.contains url then
      filterRows fields dedupe_by rest uids urls
    else
      c :: filterRows fields dedupe_by rest
        (if uid ≠ "" then uid :: uids else uids)
        (if url ≠ "" then url :: urls else urls)

/-- `csv.DictWriter.writerow` with `extrasaction="ignore"`: the record is
the row's value at each schema field, in schema order. -/
def serializeRow (fields : List String) (r : StrRow) : List String :=
  fields.map (fun k => rowGet r k)

/-- The outcome of one `write_incremental_csv` call: the filesystem, the
returned count of new rows, and the two post-write validation verdicts the
code prints (`none` when the early-return path skipped the writes). -/
structure WriteResult where
  fs : FS
  count : Nat
  newValid : Option Bool
  allValid : Option Bool

/-- `write_incremental_csv` from `src/utils.py`: dedupe against the history
file's keys, write the accepted rows to the delta file (overwrite, or append
when `append_new` and the file has content), then append them to the history
file — redirecting to a `_v2` sibling when the existing history header does
not strip-match the schema — validating each file after writing. -/
def write_incremental_csv (fs : FS) (all_csv new_csv : CsvPath)
    (rows : List StrRow) (fields : List String)
    (dedupe_by : String) (append_new : Bool) : WriteResult :=
  let existing := load_existing_keys (fs.read all_csv)
  let filtered := filterRows fields dedupe_by rows existing.1 existing.2
  if filtered.isEmpty then ⟨fs, 0, none, none⟩
  else
    let serialized := filtered.map (serializeRow fields)
    -- new_csv: mode "a" iff append_new and the file exists with size > 0
    let newContent := fs.read new_csv
    let newHasData := match newContent with
      | some (_ :: _) => true
      | _ => false
    let newFile :=
      if append_new && newHasData then newContent.getD [] ++ serialized
      else fields :: serialized
    let fs1 := fs.write new_csv newFile
    let nv := validate_csv_format (fs1.read new_csv) fields
    -- all_csv: header check and possible redirect to the _v2 sibling
    let allContent := fs1.read all_csv
    let allHasData := match allContent with
      | some (_ :: _) => true
      | _ => false
    let need_header0 := !allHasData
    let redirect :=
      !need_header0 &&
        (match read_header allContent with
         | some h => !h.isEmpty && (h.map pyStripStr != fields)
         | none => false)
    let target := if redirect then withV2 all_csv else all_csv
    let targetContent := if redirect then fs1.read (withV2 all_csv) else allContent
    let targetHasData := match targetContent with
      | some (_ :: _) => true
      | _ => false
    let need_header := if redirect then !targetHasData else need_header0
    let modeAppend := targetContent.isSome && !need_header
    let allFile :=
      if modeAppend then targetContent.getD [] ++ serialized
      else if need_header then fields :: serialized
      else serialized
    let fs2 := fs1.write target allFile
    let av := validate_csv_format (fs2.read target) fields
    ⟨fs2, filtered.length, some nv, some av⟩

/-! ## Helper lemmas -/

theorem pyOr_pbool (bz bo : Bool) :
    pyOr (.pbool bz) (.pbool bo) = .pbool (bz || bo) := by
  cases bz <;> simp [pyOr, PyVal.truthy]

theorem objTruthy_call_model (cl : String → Option String) (p : String)
    (h : objTruthy (call_model cl p).1 = true) : (call_model cl p).2 = true := by
  cases hc : cl p <;> simp [call_model, hc] at h ⊢
  · simp [objTruthy] at h

/-! ## Claims about the consensus classifier -/

/-- C1: the claim says every combination of the two failure kinds
(`ConnectionFailure`/`ParseError`) for both providers yields the
Indeterminate `"ERROR"` verdict with the alert flag set.  The code only
does so when both *connections* failed: here, at the repository's own
`test_both_failure` scenario (Z.AI connection fails, OpenRouter replies
unparseable text), it returns the boolean verdict `False` with
`alert_needed = False` instead of `"ERROR"`. -/
theorem mixed_failure_returns_boolean_false :
    (assess_relevance (fun _ => none) (fun _ => some "Invalid JSON")
        "CBDC Pilot Launch" "The central bank launched a pilot."
        "Details about the e-currency.").1.is_relevant = PyVal.pbool false ∧
    (assess_relevance (fun _ => none) (fun _ => some "Invalid JSON")
        "CBDC Pilot Launch" "The central bank launched a pilot."
        "Details about the e-currency.").1.alert_needed = some false ∧
    (assess_relevance (fun _ => none) (fun _ => some "Invalid JSON")
        "CBDC Pilot Launch" "The central bank launched a pilot."
        "Details about the e-currency.").1.zaiDetail.status = "error" ∧
    (assess_relevance (fun _ => none) (fun _ => some "Invalid JSON")
        "CBDC Pilot Launch" "The central bank launched a pilot."
        "Details about the e-currency.").1.orDetail.status = "parse_error" :=
  ⟨rfl, rfl, rfl, rfl⟩

/-- C4: when no configured keyword occurs in the lower-cased concatenation
of title, abstract and content, `assess_relevance` returns immediately:
verdict `False`, no alert (the key is absent, so any reader of
`alert_needed` sees a falsy value), both provider summaries `skipped`, the
"no keyword match" sentinel as reasoning, and neither provider client is
invoked. -/
theorem prefilter_short_circuit (zc oc : String → Option String) (t a c : String)
    (h : keywordHit t a c = false) :
    (assess_relevance zc oc t a c).1.is_relevant = PyVal.pbool false ∧
    (assess_relevance zc oc t a c).1.alert_needed.getD false = false ∧
    (assess_relevance zc oc t a c).1.zaiDetail.status = "skipped" ∧
    (assess_relevance zc oc t a c).1.orDetail.status = "skipped" ∧
    (assess_relevance zc oc t a c).1.reasoning = PyVal.pstr "关键词不匹配 (No Keywords)" ∧
    (assess_relevance zc oc t a c).2 = (0, 0) := by
  simp [assess_relevance, h]

/-- C4 witness: a concrete keyword-free record takes the short-circuit. -/
theorem prefilter_short_circuit_witness :
    keywordHit "hello" "world" "some text" = false ∧
    (assess_relevance (fun _ => some "\x7b\"is_relevant\": true\x7d") (fun _ => none)
        "hello" "world" "some text").2 = (0, 0) :=
  ⟨by rfl,
   (prefilter_short_circuit (fun _ => some "\x7b\"is_relevant\": true\x7d") (fun _ => none)
     "hello" "world" "some text" (by rfl)).2.2.2.2.2⟩

/-- C3: the alert flag is `True` exactly when the keyword prefilter passed
and both provider clients returned `None` (both connections failed), and in
that case the verdict is the `"ERROR"` sentinel. -/
theorem alert_iff_both_connections_failed (zc oc : String → Option String)
    (t a c : String) :
    ((assess_relevance zc oc t a c).1.alert_needed = some true ↔
      keywordHit t a c = true ∧
        zc (buildPrompt t a c) = none ∧ oc (buildPrompt t a c) = none) ∧
    ((assess_relevance zc oc t a c).1.alert_needed = some true →
      (assess_relevance zc oc t a c).1.is_relevant = PyVal.pstr "ERROR") := by
  by_cases hk : keywordHit t a c
  · rcases hz : zc (buildPrompt t a c) with _ | zraw <;>
      rcases ho : oc (buildPrompt t a c) with _ | oraw <;>
      simp [assess_relevance, call_model, hk, hz, ho]
  · simp [assess_relevance, call_model, hk, eq_false hk]

/-- C2: once the prefilter passes and at least one provider outcome is
`Success`, the verdict is the disjunction of the providers' boolean
`is_relevant` contributions (a failed or unparsed provider contributes
`False`): any single succeeding provider asserting relevance makes the
verdict `True`. -/
theorem or_merge_verdict (zc oc : String → Option String) (t a c : String)
    (bz bo : Bool)
    (hk : keywordHit t a c = true)
    (hz : relContrib (call_model zc (buildPrompt t a c)).1 = PyVal.pbool bz)
    (ho : relContrib (call_model oc (buildPrompt t a c)).1 = PyVal.pbool bo)
    (hs : (assess_relevance zc oc t a c).1.zaiDetail.status = "success" ∨
          (assess_relevance zc oc t a c).1.orDetail.status = "success") :
    (assess_relevance zc oc t a c).1.is_relevant = PyVal.pbool (bz || bo) := by
  rcases hzc : zc (buildPrompt t a c) with _ | zraw <;>
    rcases hoc : oc (buildPrompt t a c) with _ | oraw
  · -- both connections failed: no outcome can be Success
    simp [assess_relevance, call_model, hk, hzc, hoc, detailOf] at hs
  all_goals
    simp only [call_model, hzc, hoc] at hz ho
    simp [assess_relevance, call_model, hk, hzc, hoc, hz, ho, pyOr_pbool]

/-- C2 witness: Z.AI succeeds asserting `true`, OpenRouter connection
fails; the verdict is `true || false = true`. -/
theorem or_merge_verdict_witness :
    keywordHit "Digital Euro pilot" "" "" = true ∧
    (assess_relevance
        (fun _ => some "\x7b\"is_relevant\": true, \"confidence_score\": 0.9\x7d")
        (fun _ => none) "Digital Euro pilot" "" "").1.is_relevant =
      PyVal.pbool (true || false) :=
  ⟨by rfl,
   or_merge_verdict
     (fun _ => some "\x7b\"is_relevant\": true, \"confidence_score\": 0.9\x7d")
     (fun _ => none) "Digital Euro pilot" "" "" true false
     (by rfl) (by rfl) (by rfl) (Or.inl (by rfl))⟩

/-- C9: when at least one provider succeeded, the verdict's content fields
are all sourced from `pickBest` of the two parsed responses, and `pickBest`
implements the claimed cascade: a successful provider asserting relevance
wins with Z.AI (provider A) before OpenRouter (provider B); if no
successful provider asserted relevance, the first successful response
(A before B) supplies the fields even though the verdict is negative. -/
theorem content_fields_priority (zc oc : String → Option String) (t a c : String)
    (hk : keywordHit t a c = true)
    (hs : objTruthy (call_model zc (buildPrompt t a c)).1 = true ∨
          objTruthy (call_model oc (buildPrompt t a c)).1 = true) :
    ((assess_relevance zc oc t a c).1.confidence =
        pyGet (pickBest (call_model zc (buildPrompt t a c)).1
          (call_model oc (buildPrompt t a c)).1) "confidence_score" (.pnum 0) ∧
     (assess_relevance zc oc t a c).1.title_cn =
        pyGet (pickBest (call_model zc (buildPrompt t a c)).1
          (call_model oc (buildPrompt t a c)).1) "title_cn" (.pstr t) ∧
     (assess_relevance zc oc t a c).1.summary =
        pyGet (pickBest (call_model zc (buildPrompt t a c)).1
          (call_model oc (buildPrompt t a c)).1) "summary" (.pstr "") ∧
     (assess_relevance zc oc t a c).1.reasoning =
        pyGet (pickBest (call_model zc (buildPrompt t a c)).1
          (call_model oc (buildPrompt t a c)).1) "reasoning" (.pstr "")) ∧
    (∀ zres ores : Option Obj,
      (objTruthy zres = true → (relContrib zres).truthy = true →
        pickBest zres ores = zres.getD []) ∧
      (¬(objTruthy zres = true ∧ (relContrib zres).truthy = true) →
        objTruthy ores = true → (relContrib ores).truthy = true →
        pickBest zres ores = ores.getD []) ∧
      (¬(objTruthy zres = true ∧ (relContrib zres).truthy = true) →
       ¬(objTruthy ores = true ∧ (relContrib ores).truthy = true) →
        objTruthy zres = true → pickBest zres ores = zres.getD []) ∧
      (objTruthy zres = false → objTruthy ores = true →
        ¬((relContrib ores).truthy = true) → pickBest zres ores = ores.getD [])) := by
  constructor
  · have hmerge : ¬((call_model zc (buildPrompt t a c)).2 = false ∧
        (call_model oc (buildPrompt t a c)).2 = false) := by
      rcases hs with h | h
      · have := objTruthy_call_model zc (buildPrompt t a c) h
        intro hcon; rw [this] at hcon; exact absurd hcon.1 (by simp)
      · have := objTruthy_call_model oc (buildPrompt t a c) h
        intro hcon; rw [this] at hcon; exact absurd hcon.2 (by simp)
    rcases hzc : zc (buildPrompt t a c) with _ | zraw <;>
      rcases hoc : oc (buildPrompt t a c) with _ | oraw
    · exfalso; exact hmerge (by simp [call_model, hzc, hoc])
    all_goals simp [assess_relevance, call_model, hk, hzc, hoc]
  · intro zres ores
    refine ⟨fun h1 h2 => ?_, fun h1 h2 h3 => ?_, fun h1 h2 h3 => ?_, fun h1 h2 h3 => ?_⟩ <;>
      simp only [pickBest]
    · simp [h1, h2]
    · have : ¬(objTruthy zres && (relContrib zres).truthy) = true := by
        simp only [Bool.and_eq_true]; exact h1
      simp [this, h2, h3]
    · have hz : ¬(objTruthy zres && (relContrib zres).truthy) = true := by
        simp only [Bool.and_eq_true]; exact h1
      have ho : ¬(objTruthy ores && (relContrib ores).truthy) = true := by
        simp only [Bool.and_eq_true]; exact h2
      simp [hz, ho, h3]
    · simp [h1, h2, h3]

/-- C9 witness: Z.AI succeeds but answers `false`, OpenRouter succeeds and
asserts `true`: the content fields come from OpenRouter's response. -/
theorem content_fields_priority_witness :
    keywordHit "cbdc" "" "" = true ∧
    (assess_relevance
        (fun _ => some "\x7b\"is_relevant\": false, \"confidence_score\": 0.2\x7d")
        (fun _ => some "\x7b\"is_relevant\": true, \"confidence_score\": 0.8\x7d")
        "cbdc" "" "").1.confidence =
      pyGet (pickBest
        (call_model (fun _ => some "\x7b\"is_relevant\": false, \"confidence_score\": 0.2\x7d")
          (buildPrompt "cbdc" "" "")).1
        (call_model (fun _ => some "\x7b\"is_relevant\": true, \"confidence_score\": 0.8\x7d")
          (buildPrompt "cbdc" "" "")).1) "confidence_score" (.pnum 0) := by
  refine ⟨by rfl, ?_⟩
  exact (content_fields_priority
    (fun _ => some "\x7b\"is_relevant\": false, \"confidence_score\": 0.2\x7d")
    (fun _ => some "\x7b\"is_relevant\": true, \"confidence_score\": 0.8\x7d")
    "cbdc" "" "" (by rfl) (Or.inl (by rfl))).1.1

theorem isPrefixOf_append_self (a b : List Char) :
    List.isPrefixOf a (a ++ b) = true :=
  List.isPrefixOf_iff_prefix.mpr (List.prefix_append a b)

theorem isSuffixOf_append_self (a b : List Char) :
    List.isSuffixOf b (a ++ b) = true :=
  List.isSuffixOf_iff_suffix.mpr (List.suffix_append a b)

theorem findIdx_all_false {p : Char → Bool} {l : List Char}
    (h : ∀ x ∈ l, p x = false) : l.findIdx p = l.length := by
  induction l with
  | nil => rfl
  | cons c cs ih =>
    simp [List.findIdx_cons, h c (by simp), ih (fun x hx => h x (by simp [hx]))]

theorem braceExtract_greedy (a m b : List Char)
    (ha : '{' ∉ a) (hb : '}' ∉ b) :
    braceExtract (a ++ '{' :: (m ++ '}' :: b)) = '{' :: (m ++ ['}']) := by
  have hcont : (a ++ '{' :: (m ++ '}' :: b)).contains '}' = true :=
    List.elem_iff.mpr (by simp)
  have hrev : (a ++ '{' :: (m ++ '}' :: b)).reverse =
      b.reverse ++ '}' :: (m.reverse ++ '{' :: a.reverse) := by
    simp [List.reverse_append]
  have hbf : ∀ x ∈ b.reverse, (x == '}') = false := by
    intro x hx
    have hxb : x ∈ b := List.mem_reverse.mp hx
    exact beq_eq_false_iff_ne.mpr (fun he => hb (he ▸ hxb))
  have hfi : (a ++ '{' :: (m ++ '}' :: b)).reverse.findIdx (· == '}') = b.length := by
    rw [hrev, List.findIdx_append, findIdx_all_false hbf]
    simp [List.findIdx_cons]
  have hlen : (a ++ '{' :: (m ++ '}' :: b)).length =
      a.length + m.length + b.length + 2 := by simp; omega
  have hj : lastIdxOf '}' (a ++ '{' :: (m ++ '}' :: b)) = a.length + m.length + 1 := by
    unfold lastIdxOf
    rw [hfi, hlen]; omega
  have htake : (a ++ '{' :: (m ++ '}' :: b)).take (a.length + m.length + 1) =
      a ++ '{' :: m := by
    have hgrp : a ++ '{' :: (m ++ '}' :: b) = (a ++ '{' :: m) ++ ('}' :: b) := by simp
    rw [hgrp]
    exact List.take_left' (by simp; omega)
  have haf : ∀ x ∈ a, (x == '{') = false := by
    intro x hx
    exact beq_eq_false_iff_ne.mpr (fun he => ha (he ▸ hx))
  have hfind : (a ++ '{' :: m).findIdx? (· == '{') = some a.length := by
    rw [List.findIdx?_append, List.findIdx?_eq_none_iff.mpr haf]
    simp [List.findIdx?_cons]
  have htake1 : (a ++ '{' :: (m ++ '}' :: b)).take (a.length + m.length + 1 + 1) =
      a ++ '{' :: (m ++ ['}']) := by
    have hgrp : a ++ '{' :: (m ++ '}' :: b) = (a ++ '{' :: (m ++ ['}'])) ++ b := by simp
    rw [hgrp]
    exact List.take_left' (by simp; omega)
  have hdrop : (a ++ '{' :: (m ++ ['}'])).drop a.length = '{' :: (m ++ ['}']) :=
    List.drop_left' rfl
  simp only [braceExtract, hcont, if_true]
  rw [hj, htake, hfind, htake1]
  exact hdrop

/-- C8: `_parse_json` is total — for every input it returns either `none`
or a parsed object (never an exception and never a non-object value): any
`json.loads` failure yields `none`, any parsed non-object value yields
`none`, a surrounding ```` ```json … ``` ```` fence pair is stripped before
extraction, and the extraction itself takes the first greedy brace-matched
`{...}` block (first `'{'` through last `'}'`) before parsing. -/
theorem parse_json_tolerance (text : String) :
    (parse_json text = none ∨
      ∃ d, parse_json text = some d ∧
        jsonLoads (prepareText text) = .ok (.pdict d)) ∧
    (∀ e, jsonLoads (prepareText text) = .error e → parse_json text = none) ∧
    (∀ v, jsonLoads (prepareText text) = .ok v → (∀ d, v ≠ .pdict d) →
      parse_json text = none) ∧
    (∀ body, pyStrip text.data = "```json".data ++ (body ++ "```".data) →
      prepareText text = braceExtract body) ∧
    (∀ a m b, '{' ∉ a → '}' ∉ b →
      braceExtract (a ++ '{' :: (m ++ '}' :: b)) = '{' :: (m ++ ['}'])) := by
  refine ⟨?_, ?_, ?_, ?_, braceExtract_greedy⟩
  · by_cases ht : text == ""
    · left; simp [parse_json, ht]
    · rcases hj : jsonLoads (prepareText text) with e | v
      · left; simp [parse_json, ht, hj]
      · rcases v with _ | bb | qq | ss | xs | d
        · left; simp [parse_json, ht, hj]
        · left; simp [parse_json, ht, hj]
        · left; simp [parse_json, ht, hj]
        · left; simp [parse_json, ht, hj]
        · left; simp [parse_json, ht, hj]
        · exact Or.inr ⟨d, by simp [parse_json, ht, hj], by simp [hj]⟩
  · intro e he
    by_cases ht : text == "" <;> simp [parse_json, ht, he]
  · intro v hv hnd
    by_cases ht : text == ""
    · simp [parse_json, ht]
    · rcases v with _ | bb | qq | ss | xs | d
      · simp [parse_json, ht, hv]
      · simp [parse_json, ht, hv]
      · simp [parse_json, ht, hv]
      · simp [parse_json, ht, hv]
      · simp [parse_json, ht, hv]
      · exact absurd rfl (hnd d)
  · intro body hbody
    simp only [prepareText, hbody]
    have h1 : List.isPrefixOf "```json".data
        ("```json".data ++ (body ++ "```".data)) = true :=
      isPrefixOf_append_self _ _
    rw [if_pos h1, List.drop_left' (by rfl)]
    have h2 : List.isSuffixOf "```".data (body ++ "```".data) = true :=
      isSuffixOf_append_self _ _
    rw [if_pos h2, List.take_left' (by simp)]

/-- C8 witness: prose plus a fenced object parses to the inner object; a
bare JSON array (a non-object value) yields `none`. -/
theorem parse_json_tolerance_witness :
    parse_json "```json\n\x7b\"is_relevant\": true\x7d\n```" =
      some [("is_relevant", PyVal.pbool true)] ∧
    jsonLoads (prepareText "[true, false]") =
      .ok (.plist [.pbool true, .pbool false]) ∧
    parse_json "[true, false]" = none :=
  ⟨by rfl, by rfl,
   (parse_json_tolerance "[true, false]").2.2.1 (.plist [.pbool true, .pbool false])
     (by rfl) (fun d h => by cases h)⟩

/-! ## Claims about the ledger utilities -/

/-- C7 counterexample: `make_uid` hashes the bare concatenation
`f"{source}|{url}"`, so the two distinct pairs `("a|b", "c")` and
`("a", "b|c")` hash the same string `"a|b|c"` and share one uid — the
claimed injectivity over all distinct pairs fails. -/
theorem make_uid_separator_collision :
    make_uid "a|b" "c" = make_uid "a" "b|c" ∧
    ("a|b", "c") ≠ (("a" : String), ("b|c" : String)) :=
  ⟨rfl, by decide⟩

/-- C7 (amended): `make_uid` is deterministic (a pure function of the
hashed string `f"{source}|{url}"`), and a change to exactly one of the two
fields always changes that hashed string — uid collisions can only come
from pairs whose concatenations coincide (as in the counterexample) or
from SHA-256 collisions on distinct inputs. -/
theorem make_uid_deterministic_single_field (s u s' u' : String) :
    (s = s' → u = u' → make_uid s u = make_uid s' u') ∧
    (uidRaw s u = uidRaw s' u' → make_uid s u = make_uid s' u') ∧
    (s = s' → u ≠ u' → uidRaw s u ≠ uidRaw s' u') ∧
    (u = u' → s ≠ s' → uidRaw s u ≠ uidRaw s' u') := by
  refine ⟨fun h1 h2 => by rw [h1, h2], fun h => by rw [make_uid, make_uid, h],
    fun h1 h2 hraw => h2 ?_, fun h1 h2 hraw => h2 ?_⟩
  · subst h1
    have hd : (s ++ "|" ++ u).data = (s ++ "|" ++ u').data :=
      congrArg String.data hraw
    rw [String.data_append, String.data_append, String.data_append,
      String.data_append] at hd
    exact String.ext (List.append_cancel_left hd)
  · subst h1
    have hd : (s ++ "|" ++ u).data = (s' ++ "|" ++ u).data :=
      congrArg String.data hraw
    rw [String.data_append, String.data_append, String.data_append,
      String.data_append] at hd
    have hs : s.data ++ "|".data = s'.data ++ "|".data :=
      List.append_cancel_right hd
    exact String.ext (List.append_cancel_right hs)

/-- C7 amended witness: determinism and single-field sensitivity at
concrete inputs. -/
theorem make_uid_deterministic_single_field_witness :
    make_uid "src" "u" = make_uid "src" "u" ∧
    uidRaw "src" "u1" ≠ uidRaw "src" "u2" :=
  ⟨(make_uid_deterministic_single_field "src" "u" "src" "u").1 rfl rfl,
   (make_uid_deterministic_single_field "src" "u1" "src" "u2").2.2.1 rfl
     (by decide)⟩

/-- C10: when every candidate row is dropped as a duplicate (the filtered
list is empty), `write_incremental_csv` returns 0 and performs no file
operation at all: the filesystem is unchanged — in particular the delta
file is not truncated and keeps whatever a previous run wrote — and no
post-write validation runs. -/
theorem no_write_when_all_duplicates (fs : FS) (all_csv new_csv : CsvPath)
    (rows : List StrRow) (fields : List String) (dedupe_by : String)
    (append_new : Bool)
    (h : filterRows fields dedupe_by rows
      (load_existing_keys (fs.read all_csv)).1
      (load_existing_keys (fs.read all_csv)).2 = []) :
    write_incremental_csv fs all_csv new_csv rows fields dedupe_by append_new =
      ⟨fs, 0, none, none⟩ := by
  simp [write_incremental_csv, h]

/-- The concrete ledger state used by the C10 witness: the history already
holds uid `u1`, and the delta file still holds a row from a previous run. -/
def dupFS : FS :=
  ⟨[(⟨"data", "GLOBAL_standard_all", ".csv"⟩,
     [STANDARD_FIELDS, ["u1", "s", "", "", "", "T1", "http://a/1", "", "", "", "", ""]]),
    (⟨"data", "GLOBAL_standard_new", ".csv"⟩,
     [STANDARD_FIELDS, ["u0", "s", "", "", "", "T0", "http://a/0", "", "", "", "", ""]])]⟩

/-- C10 witness: resubmitting the already-present row leaves the
filesystem — delta file included — untouched and returns 0. -/
theorem no_write_when_all_duplicates_witness :
    filterRows STANDARD_FIELDS "uid" [[("uid", "u1"), ("title", "T1")]]
      (load_existing_keys (dupFS.read ⟨"data", "GLOBAL_standard_all", ".csv"⟩)).1
      (load_existing_keys (dupFS.read ⟨"data", "GLOBAL_standard_all", ".csv"⟩)).2 = [] ∧
    write_incremental_csv dupFS ⟨"data", "GLOBAL_standard_all", ".csv"⟩
      ⟨"data", "GLOBAL_standard_new", ".csv"⟩ [[("uid", "u1"), ("title", "T1")]]
      STANDARD_FIELDS "uid" false = ⟨dupFS, 0, none, none⟩ :=
  ⟨by rfl,
   no_write_when_all_duplicates dupFS ⟨"data", "GLOBAL_standard_all", ".csv"⟩
     ⟨"data", "GLOBAL_standard_new", ".csv"⟩ [[("uid", "u1"), ("title", "T1")]]
     STANDARD_FIELDS "uid" false (by rfl)⟩

theorem find?_filter_ne (l : List (CsvPath × CsvFile)) (p q : CsvPath) (h : q ≠ p) :
    (l.filter (fun e => !(e.1 == p))).find? (fun e => e.1 == q) =
      l.find? (fun e => e.1 == q) := by
  induction l with
  | nil => rfl
  | cons e rest ih =>
    by_cases he : e.1 = p
    · have h1 : (e.1 == p) = true := by simp [he]
      have h2 : (e.1 == q) = false := by
        simp only [beq_eq_false_iff_ne]; rw [he]; exact fun hh => h hh.symm
      simp [List.filter_cons, h1, List.find?_cons, h2, ih]
    · have h1 : (e.1 == p) = false := by simp [he]
      by_cases hq : e.1 = q
      · have h2 : (e.1 == q) = true := by simp [hq]
        simp [List.filter_cons, h1, List.find?_cons, h2]
      · have h2 : (e.1 == q) = false := by simp [hq]
        simp [List.filter_cons, h1, List.find?_cons, h2, ih]

theorem FS.read_write (fs : FS) (p q : CsvPath) (c : CsvFile) :
    (fs.write p c).read q = if q = p then some c else fs.read q := by
  by_cases h : q = p
  · subst h
    simp [FS.read, FS.write, List.find?_cons]
  · have hpq : (p == q) = false := by
      simp only [beq_eq_false_iff_ne]; exact fun hh => h hh.symm
    simp [FS.read, FS.write, List.find?_cons, hpq, h, find?_filter_ne fs.files p q h]

theorem withV2_ne (p : CsvPath) : withV2 p ≠ p := by
  intro h
  have hstem : p.stem ++ "_v2" = p.stem := congrArg CsvPath.stem h
  have hlen := congrArg String.length hstem
  simp [String.length_append] at hlen
  exact absurd hlen (by decide)

/-- `validate_csv_format` succeeds exactly when the file exists and every
record in it — the header included — has exactly the expected number of
columns. -/
theorem validate_csv_format_iff (file : Option CsvFile) (flds : List String) :
    validate_csv_format file flds = true ↔
      file.isSome = true ∧ ∀ r ∈ file.getD [], r.length = flds.length := by
  rcases file with _ | rows
  · simp [validate_csv_format]
  · rcases rows with _ | ⟨h, tl⟩
    · simp [validate_csv_format]
    · simp [validate_csv_format, List.all_eq_true, List.forall_mem_cons]

theorem dropWhile_head?_false (p : Char → Bool) (l : List Char) (c : Char)
    (h : (l.dropWhile p).head? = some c) : p c = false := by
  induction l with
  | nil => simp at h
  | cons x rest ih =>
    rw [List.dropWhile_cons] at h
    by_cases hx : p x
    · rw [if_pos hx] at h; exact ih h
    · rw [if_neg hx] at h
      simp at h
      rw [← h]
      exact Bool.eq_false_iff.mpr hx

theorem dropWhile_eq_self_of_head (p : Char → Bool) (l : List Char)
    (h : ∀ c, l.head? = some c → p c = false) : l.dropWhile p = l := by
  cases l with
  | nil => rfl
  | cons x rest =>
    rw [List.dropWhile_cons, if_neg]
    simp [h x rfl]

theorem pyStrip_idem (l : List Char) : pyStrip (pyStrip l) = pyStrip l := by
  unfold pyStrip
  set A := l.dropWhile pyWhitespace with hA
  set C := A.reverse.dropWhile pyWhitespace with hC
  obtain ⟨t, ht⟩ := List.dropWhile_suffix (l := A.reverse) (p := pyWhitespace)
  have hArev : A = C.reverse ++ t.reverse := by
    rw [← List.reverse_reverse A, ← ht]
    simp
  have hfront : C.reverse.dropWhile pyWhitespace = C.reverse := by
    apply dropWhile_eq_self_of_head
    intro c hc
    apply dropWhile_head?_false pyWhitespace l c
    rw [← hA, hArev]
    cases hcr : C.reverse with
    | nil => rw [hcr] at hc; simp at hc
    | cons y ys =>
      rw [hcr] at hc
      simp at hc
      simp [hcr, hc]
  have hback : (C.reverse.dropWhile pyWhitespace).reverse.dropWhile pyWhitespace =
      (C.reverse.dropWhile pyWhitespace).reverse := by
    rw [hfront, List.reverse_reverse, hC]
    exact List.dropWhile_idempotent _ _
  rw [hback, hfront, List.reverse_reverse]

theorem pyStripStr_sanitize_one_line (s : String) :
    pyStripStr (sanitize_text s true) = sanitize_text s true := by
  simp only [sanitize_text, if_pos, pyStripStr]
  exact congrArg String.mk (pyStrip_idem _)

theorem find?_map_keyed (flds : List String) (g : String → String × String)
    (hg : ∀ x, (g x).1 = x) (k : String) (hk : k ∈ flds) :
    (flds.map g).find? (fun e => e.1 == k) = some (g k) := by
  induction flds with
  | nil => cases hk
  | cons x rest ih =>
    by_cases hx : x = k
    · subst hx
      simp [List.find?_cons, hg x]
    · have hbeq : ((g x).1 == k) = false := by
        rw [hg x]; exact beq_eq_false_iff_ne.mpr hx
      have hkrest : k ∈ rest := by
        rcases List.mem_cons.mp hk with h | h
        · exact absurd h.symm hx
        · exact h
      simp [List.find?_cons, hbeq, ih hkrest]

theorem rowGet_cleanRow (fields : List String) (r : StrRow) (k : String)
    (hk : k ∈ fields) :
    rowGet (cleanRow fields r) k =
      (if k == "content" || k == "abstract" || k == "title"
       then sanitize_text (rowGet r k) false
       else sanitize_text (rowGet r k) true) := by
  unfold rowGet cleanRow
  rw [find?_map_keyed fields _ (fun x => by dsimp; split <;> rfl) k hk]
  dsimp
  split <;> rfl

theorem zip_map_self (fields : List String) (f : String → String) :
    fields.zip (fields.map f) = fields.map (fun x => (x, f x)) := by
  induction fields with
  | nil => rfl
  | cons x rest ih => simp [ih]

theorem strZipGet_serializeRow (fields : List String) (r : StrRow) (k : String)
    (hk : k ∈ fields) :
    strZipGet fields (serializeRow fields r) k = some (rowGet r k) := by
  unfold strZipGet serializeRow
  rw [zip_map_self fields (fun f => rowGet r f),
    find?_map_keyed fields _ (fun x => rfl) k hk]
  rfl

theorem loadKeysStep_fst (has_uid : Bool) (url_field : Option String)
    (header row : List String) (acc : List String × List String) :
    (loadKeysStep has_uid url_field header row acc).1 =
      if has_uid ∧ stripField header row "uid" ≠ "" then
        stripField header row "uid" :: acc.1
      else acc.1 := by
  unfold loadKeysStep
  rcases url_field with _ | uf
  · by_cases h1 : has_uid <;>
      by_cases h2 : stripField header row "uid" = "" <;>
      simp [h1, h2]
  · by_cases h1 : has_uid <;>
      by_cases h2 : stripField header row "uid" = "" <;>
      by_cases h3 : stripField header row uf = "" <;>
      simp [h1, h2, h3]

theorem mem_load_keys (header : List String) (dataRows : List (List String))
    (row : List String) (hh : header.contains "uid" = true)
    (hrow : row ∈ dataRows) (hne : stripField header row "uid" ≠ "") :
    stripField header row "uid" ∈
      (load_existing_keys (some (header :: dataRows))).1 := by
  unfold load_existing_keys
  simp only [hh]
  induction dataRows with
  | nil => cases hrow
  | cons r0 rest ih =>
    rw [List.foldr_cons, loadKeysStep_fst]
    rcases List.mem_cons.mp hrow with rfl | hmem
    · rw [if_pos ⟨rfl, hne⟩]
      exact List.mem_cons_self _ _
    · have hrec := ih hmem
      split
      · exact List.mem_cons_of_mem _ hrec
      · exact hrec

theorem rowUid_eq (fields : List String) (r : StrRow) (h : "uid" ∈ fields) :
    rowUid fields r = sanitize_text (rowGet r "uid") true := by
  unfold rowUid
  rw [rowGet_cleanRow fields r "uid" h]
  rfl

theorem rowUid_strip (fields : List String) (r : StrRow) (h : "uid" ∈ fields) :
    pyStripStr (rowUid fields r) = rowUid fields r := by
  rw [rowUid_eq fields r h]
  exact pyStripStr_sanitize_one_line _

theorem filterRows_all_kept (fields : List String) (rows : List StrRow) :
    ∀ (uids urls : List String),
      (∀ r ∈ rows, rowUid fields r ∉ uids) →
      (rows.map (rowUid fields)).Nodup →
      filterRows fields "uid" rows uids urls = rows.map (cleanRow fields) := by
  induction rows with
  | nil => intro uids urls _ _; rfl
  | cons r rest ih =>
    intro uids urls hfresh hnodup
    have hc1 : rowUid fields r ∉ uids := hfresh r (List.mem_cons_self r rest)
    have hmap : (rest.map (rowUid fields)).Nodup := (List.nodup_cons.mp hnodup).2
    have hhead : rowUid fields r ∉ rest.map (rowUid fields) :=
      (List.nodup_cons.mp hnodup).1
    simp only [filterRows, rowUid] at *
    rw [if_neg (by simp [hc1]), if_neg (by simp)]
    congr 1
    by_cases huid : rowGet (cleanRow fields r) "uid" ≠ ""
    · rw [if_pos huid]
      refine ih _ _ ?_ hmap
      intro r' hr'
      have hne : rowGet (cleanRow fields r') "uid" ≠ rowGet (cleanRow fields r) "uid" := by
        intro he
        exact hhead (he ▸ List.mem_map_of_mem (rowUid fields) hr')
      simp only [List.mem_cons]
      rintro (he | hmem)
      · exact hne he
      · exact hfresh r' (List.mem_cons_of_mem r hr') hmem
    · rw [if_neg huid]
      exact ih _ _ (fun r' hr' => hfresh r' (List.mem_cons_of_mem r hr')) hmap

theorem filterRows_all_dropped (fields : List String) (rows : List StrRow)
    (uids urls : List String)
    (h : ∀ r ∈ rows, rowUid fields r ≠ "" ∧ rowUid fields r ∈ uids) :
    filterRows fields "uid" rows uids urls = [] := by
  induction rows with
  | nil => rfl
  | cons r rest ih =>
    obtain ⟨hne, hin⟩ := h r (List.mem_cons_self r rest)
    simp only [filterRows, rowUid] at *
    rw [if_pos (by simp [hne, hin])]
    exact ih (fun r' hr' => h r' (List.mem_cons_of_mem r hr'))

theorem filterRows_fresh (fields : List String) (rows : List StrRow) :
    ∀ (uids urls : List String), ∀ c ∈ filterRows fields "uid" rows uids urls,
      rowGet c "uid" ≠ "" → rowGet c "uid" ∉ uids := by
  induction rows with
  | nil => intro uids urls c hc; cases hc
  | cons r rest ih =>
    intro uids urls c hc hne
    simp only [filterRows] at hc
    by_cases h1 : rowGet (cleanRow fields r) "uid" ≠ "" ∧
        rowGet (cleanRow fields r) "uid" ∈ uids
    · rw [if_pos (by simp [h1.1, h1.2])] at hc
      exact ih uids urls c hc hne
    · rw [if_neg (by simp; intro hx; by_contra hy; exact h1 ⟨hx, by simpa using hy⟩),
        if_neg (by simp)] at hc
      rcases List.mem_cons.mp hc with rfl | htail
      · intro hmem
        exact h1 ⟨hne, hmem⟩
      · by_cases huid : rowGet (cleanRow fields r) "uid" ≠ ""
        · rw [if_pos huid] at htail
          have := ih _ _ c htail hne
          simp only [List.mem_cons] at this
          intro hmem
          exact this (Or.inr hmem)
        · rw [if_neg huid] at htail
          exact ih _ _ c htail hne

theorem filterRows_nodup (fields : List String) (rows : List StrRow) :
    ∀ (uids urls : List String),
      (((filterRows fields "uid" rows uids urls).map (fun c => rowGet c "uid")).filter
        (fun u => u ≠ "")).Nodup := by
  induction rows with
  | nil => intro uids urls; simp [filterRows]
  | cons r rest ih =>
    intro uids urls
    simp only [filterRows]
    by_cases h1 : rowGet (cleanRow fields r) "uid" ≠ "" ∧
        rowGet (cleanRow fields r) "uid" ∈ uids
    · rw [if_pos (by simp [h1.1, h1.2])]
      exact ih uids urls
    · rw [if_neg (by simp; intro hx; by_contra hy; exact h1 ⟨hx, by simpa using hy⟩),
        if_neg (by simp)]
      by_cases huid : rowGet (cleanRow fields r) "uid" ≠ ""
      · rw [if_pos huid]
        simp only [List.map_cons, List.filter_cons]
        rw [if_pos (by simpa using huid)]
        refine List.nodup_cons.mpr ⟨?_, ih _ _⟩
        intro hmem
        have hmem2 := List.mem_filter.mp hmem
        have hmem3 := List.mem_map.mp hmem2.1
        obtain ⟨c, hc, hceq⟩ := hmem3
        have hfr := filterRows_fresh fields rest _ _ c hc
          (by rw [hceq]; exact huid)
        rw [hceq] at hfr
        exact hfr (List.mem_cons_self _ _)
      · rw [if_neg huid]
        simp only [List.map_cons, List.filter_cons]
        rw [if_neg (by simpa using huid)]
        exact ih _ _

theorem write_run_empty_history (fs : FS) (all_csv new_csv : CsvPath)
    (rows : List StrRow) (fields : List String) (dedupe_by : String)
    (append_new : Bool)
    (hpath : ¬ all_csv = new_csv)
    (hnodata : fs.read all_csv = none ∨ fs.read all_csv = some [])
    (hfil : filterRows fields dedupe_by rows
      (load_existing_keys (fs.read all_csv)).1
      (load_existing_keys (fs.read all_csv)).2 ≠ []) :
    (write_incremental_csv fs all_csv new_csv rows fields dedupe_by
        append_new).fs.read all_csv =
      some (fields :: (filterRows fields dedupe_by rows
        (load_existing_keys (fs.read all_csv)).1
        (load_existing_keys (fs.read all_csv)).2).map (serializeRow fields)) ∧
    (write_incremental_csv fs all_csv new_csv rows fields dedupe_by
        append_new).count =
      (filterRows fields dedupe_by rows
        (load_existing_keys (fs.read all_csv)).1
        (load_existing_keys (fs.read all_csv)).2).length := by
  have hfe : (filterRows fields dedupe_by rows
      (load_existing_keys (fs.read all_csv)).1
      (load_existing_keys (fs.read all_csv)).2).isEmpty = false :=
    Bool.eq_false_iff.mpr (fun hx => hfil (List.isEmpty_iff.mp hx))
  rcases hnodata with h | h <;>
    · rw [h] at hfil hfe
      simp [write_incremental_csv, h, hfil, hfe, FS.read_write, hpath, read_header]

theorem write_run_matching_history (fs : FS) (all_csv new_csv : CsvPath)
    (rows : List StrRow) (fields : List String) (dedupe_by : String)
    (append_new : Bool) (tl : CsvFile)
    (hpath : ¬ all_csv = new_csv)
    (hist : fs.read all_csv = some (fields :: tl))
    (hstrip : fields.map pyStripStr = fields)
    (hfil : filterRows fields dedupe_by rows
      (load_existing_keys (fs.read all_csv)).1
      (load_existing_keys (fs.read all_csv)).2 ≠ []) :
    (write_incremental_csv fs all_csv new_csv rows fields dedupe_by
        append_new).fs.read all_csv =
      some (fields :: (tl ++ (filterRows fields dedupe_by rows
        (load_existing_keys (fs.read all_csv)).1
        (load_existing_keys (fs.read all_csv)).2).map (serializeRow fields))) ∧
    (write_incremental_csv fs all_csv new_csv rows fields dedupe_by
        append_new).count =
      (filterRows fields dedupe_by rows
        (load_existing_keys (fs.read all_csv)).1
        (load_existing_keys (fs.read all_csv)).2).length := by
  have hfe : (filterRows fields dedupe_by rows
      (load_existing_keys (fs.read all_csv)).1
      (load_existing_keys (fs.read all_csv)).2).isEmpty = false :=
    Bool.eq_false_iff.mpr (fun hx => hfil (List.isEmpty_iff.mp hx))
  rw [hist] at hfil hfe
  simp [write_incremental_csv, hist, hfil, hfe, FS.read_write, hpath, read_header,
    hstrip]

theorem write_run_mismatch_history (fs : FS) (all_csv new_csv : CsvPath)
    (rows : List StrRow) (fields : List String) (dedupe_by : String)
    (append_new : Bool) (h0 : List String) (tl : CsvFile)
    (hpath1 : ¬ all_csv = new_csv)
    (hpath2 : ¬ withV2 all_csv = new_csv)
    (hist : fs.read all_csv = some (h0 :: tl))
    (hne : h0 ≠ [])
    (hmm : h0.map pyStripStr ≠ fields)
    (hfil : filterRows fields dedupe_by rows
      (load_existing_keys (fs.read all_csv)).1
      (load_existing_keys (fs.read all_csv)).2 ≠ []) :
    (write_incremental_csv fs all_csv new_csv rows fields dedupe_by
        append_new).fs.read all_csv = some (h0 :: tl) ∧
    (fs.read (withV2 all_csv) = none →
      (write_incremental_csv fs all_csv new_csv rows fields dedupe_by
          append_new).fs.read (withV2 all_csv) =
        some (fields :: (filterRows fields dedupe_by rows
          (load_existing_keys (fs.read all_csv)).1
          (load_existing_keys (fs.read all_csv)).2).map (serializeRow fields))) ∧
    (∀ x xs, fs.read (withV2 all_csv) = some (x :: xs) →
      (write_incremental_csv fs all_csv new_csv rows fields dedupe_by
          append_new).fs.read (withV2 all_csv) =
        some ((x :: xs) ++ (filterRows fields dedupe_by rows
          (load_existing_keys (fs.read all_csv)).1
          (load_existing_keys (fs.read all_csv)).2).map (serializeRow fields))) ∧
    (write_incremental_csv fs all_csv new_csv rows fields dedupe_by
        append_new).newValid =
      some (validate_csv_format
        ((write_incremental_csv fs all_csv new_csv rows fields dedupe_by
          append_new).fs.read new_csv) fields) ∧
    (write_incremental_csv fs all_csv new_csv rows fields dedupe_by
        append_new).allValid =
      some (validate_csv_format
        ((write_incremental_csv fs all_csv new_csv rows fields dedupe_by
          append_new).fs.read (withV2 all_csv)) fields) ∧
    (write_incremental_csv fs all_csv new_csv rows fields dedupe_by
        append_new).count =
      (filterRows fields dedupe_by rows
        (load_existing_keys (fs.read all_csv)).1
        (load_existing_keys (fs.read all_csv)).2).length := by
  have hfe : (filterRows fields dedupe_by rows
      (load_existing_keys (fs.read all_csv)).1
      (load_existing_keys (fs.read all_csv)).2).isEmpty = false :=
    Bool.eq_false_iff.mpr (fun hx => hfil (List.isEmpty_iff.mp hx))
  have hne' : h0.isEmpty = false :=
    Bool.eq_false_iff.mpr (fun hx => hne (List.isEmpty_iff.mp hx))
  have hbne : (h0.map pyStripStr != fields) = true := bne_iff_ne.mpr hmm
  have hv2a : ¬ all_csv = withV2 all_csv := fun hx => withV2_ne all_csv hx.symm
  have hp1 : ¬ new_csv = all_csv := fun hx => hpath1 hx.symm
  have hp2 : ¬ new_csv = withV2 all_csv := fun hx => hpath2 hx.symm
  rw [hist] at hfil hfe
  refine ⟨?_, fun hv2 => ?_, fun x xs hv2 => ?_, ?_, ?_, ?_⟩
  · simp [write_incremental_csv, hist, hfil, hfe, FS.read_write, hpath1, hpath2,
      read_header, hne', hbne, hv2a, withV2_ne, hp1, hp2]
  · simp [write_incremental_csv, hist, hfil, hfe, FS.read_write, hpath1, hpath2,
      read_header, hne', hbne, hv2a, withV2_ne, hp1, hp2, hv2]
  · simp [write_incremental_csv, hist, hfil, hfe, FS.read_write, hpath1, hpath2,
      read_header, hne', hbne, hv2a, withV2_ne, hp1, hp2, hv2]
  · simp [write_incremental_csv, hist, hfil, hfe, FS.read_write, hpath1, hpath2,
      read_header, hne', hbne, hv2a, withV2_ne, hp1, hp2]
  · simp [write_incremental_csv, hist, hfil, hfe, FS.read_write, hpath1, hpath2,
      read_header, hne', hbne, hv2a, withV2_ne, hp1, hp2]
  · simp [write_incremental_csv, hist, hfil, hfe, FS.read_write, hpath1, hpath2,
      read_header, hne', hbne, hv2a, withV2_ne, hp1, hp2]

/-- C6: when the existing full-history file's header does not strip-match
the expected column list, `write_incremental_csv` never appends to that
file — its content is unchanged — and redirects the accepted rows to the
sibling file whose stem is suffixed `_v2` (written with a fresh header when
absent, appended when already populated); after the writes it re-reads both
written files and records a validation verdict for each, and that verdict
is `true` exactly when every record, header included, has exactly the
expected column count — a mismatch surfaces as a `false` verdict and no
repair is performed. -/
theorem header_mismatch_redirects (fs : FS) (all_csv new_csv : CsvPath)
    (rows : List StrRow) (fields : List String) (dedupe_by : String)
    (append_new : Bool) (h0 : List String) (tl : CsvFile)
    (hpath1 : ¬ all_csv = new_csv)
    (hpath2 : ¬ withV2 all_csv = new_csv)
    (hist : fs.read all_csv = some (h0 :: tl))
    (hne : h0 ≠ [])
    (hmm : h0.map pyStripStr ≠ fields)
    (hfil : filterRows fields dedupe_by rows
      (load_existing_keys (fs.read all_csv)).1
      (load_existing_keys (fs.read all_csv)).2 ≠ []) :
    (write_incremental_csv fs all_csv new_csv rows fields dedupe_by
        append_new).fs.read all_csv = some (h0 :: tl) ∧
    (fs.read (withV2 all_csv) = none →
      (write_incremental_csv fs all_csv new_csv rows fields dedupe_by
          append_new).fs.read (withV2 all_csv) =
        some (fields :: (filterRows fields dedupe_by rows
          (load_existing_keys (fs.read all_csv)).1
          (load_existing_keys (fs.read all_csv)).2).map (serializeRow fields))) ∧
    (∀ x xs, fs.read (withV2 all_csv) = some (x :: xs) →
      (write_incremental_csv fs all_csv new_csv rows fields dedupe_by
          append_new).fs.read (withV2 all_csv) =
        some ((x :: xs) ++ (filterRows fields dedupe_by rows
          (load_existing_keys (fs.read all_csv)).1
          (load_existing_keys (fs.read all_csv)).2).map (serializeRow fields))) ∧
    (write_incremental_csv fs all_csv new_csv rows fields dedupe_by
        append_new).newValid =
      some (validate_csv_format
        ((write_incremental_csv fs all_csv new_csv rows fields dedupe_by
          append_new).fs.read new_csv) fields) ∧
    (write_incremental_csv fs all_csv new_csv rows fields dedupe_by
        append_new).allValid =
      some (validate_csv_format
        ((write_incremental_csv fs all_csv new_csv rows fields dedupe_by
          append_new).fs.read (withV2 all_csv)) fields) ∧
    (∀ (file : Option CsvFile) (flds : List String),
      validate_csv_format file flds = true ↔
        file.isSome = true ∧ ∀ rec ∈ file.getD [], rec.length = flds.length) := by
  obtain ⟨c1, c2, c3, c4, c5, _⟩ := write_run_mismatch_history fs all_csv new_csv
    rows fields dedupe_by append_new h0 tl hpath1 hpath2 hist hne hmm hfil
  exact ⟨c1, c2, c3, c4, c5, validate_csv_format_iff⟩

/-- The ledger state for the C6 witness: a history file with a malformed
two-column header. -/
def mmFS : FS :=
  ⟨[(⟨"data", "GLOBAL_standard_all", ".csv"⟩, [["bad", "header"], ["x", "y"]])]⟩

/-- C6 witness: with the malformed pre-existing header, the write leaves
the history file as it was, creates `GLOBAL_standard_all_v2.csv` with a
fresh header plus the accepted row, and validates the redirected file. -/
theorem header_mismatch_redirects_witness :
    (write_incremental_csv mmFS ⟨"data", "GLOBAL_standard_all", ".csv"⟩
        ⟨"data", "GLOBAL_standard_new", ".csv"⟩ [[("uid", "u9"), ("title", "T")]]
        STANDARD_FIELDS "uid" false).fs.read
        ⟨"data", "GLOBAL_standard_all", ".csv"⟩ =
      some [["bad", "header"], ["x", "y"]] ∧
    (write_incremental_csv mmFS ⟨"data", "GLOBAL_standard_all", ".csv"⟩
        ⟨"data", "GLOBAL_standard_new", ".csv"⟩ [[("uid", "u9"), ("title", "T")]]
        STANDARD_FIELDS "uid" false).fs.read
        (withV2 ⟨"data", "GLOBAL_standard_all", ".csv"⟩) =
      some (STANDARD_FIELDS ::
        (filterRows STANDARD_FIELDS "uid" [[("uid", "u9"), ("title", "T")]]
          (load_existing_keys (mmFS.read ⟨"data", "GLOBAL_standard_all", ".csv"⟩)).1
          (load_existing_keys
            (mmFS.read ⟨"data", "GLOBAL_standard_all", ".csv"⟩)).2).map
          (serializeRow STANDARD_FIELDS)) :=
  ⟨(header_mismatch_redirects mmFS ⟨"data", "GLOBAL_standard_all", ".csv"⟩
      ⟨"data", "GLOBAL_standard_new", ".csv"⟩ [[("uid", "u9"), ("title", "T")]]
      STANDARD_FIELDS "uid" false ["bad", "header"] [["x", "y"]]
      (by decide) (by decide) (by rfl) (by decide) (by decide) (by decide)).1,
   (header_mismatch_redirects mmFS ⟨"data", "GLOBAL_standard_all", ".csv"⟩
      ⟨"data", "GLOBAL_standard_new", ".csv"⟩ [[("uid", "u9"), ("title", "T")]]
      STANDARD_FIELDS "uid" false ["bad", "header"] [["x", "y"]]
      (by decide) (by decide) (by rfl) (by decide) (by decide) (by decide)).2.1
     (by rfl)⟩

/-- Number of data records (header excluded) in the file at `p`. -/
def histRowCount (fs : FS) (p : CsvPath) : Nat :=
  match fs.read p with
  | some (_ :: tl) => tl.length
  | _ => 0

/-- C5 counterexample: rows whose sanitized uid is empty are never deduped
(`if uid and uid in existing_uids` skips the check for falsy uids).  With
the sole row `{"title": "E"}` (uid `""`), a first call returns 1, a second
call with the very same row returns 1 again instead of the claimed 0, and a
single batch holding that row twice appends both — two rows with the same
uid — returning 2. -/
theorem write_incremental_csv_empty_uid_cex :
    rowUid STANDARD_FIELDS [("title", "E")] = "" ∧
    (write_incremental_csv (FS.mk []) ⟨"data", "GLOBAL_standard_all", ".csv"⟩
      ⟨"data", "GLOBAL_standard_new", ".csv"⟩ [[("title", "E")]]
      STANDARD_FIELDS "uid" false).count = 1 ∧
    (write_incremental_csv
      (write_incremental_csv (FS.mk []) ⟨"data", "GLOBAL_standard_all", ".csv"⟩
        ⟨"data", "GLOBAL_standard_new", ".csv"⟩ [[("title", "E")]]
        STANDARD_FIELDS "uid" false).fs
      ⟨"data", "GLOBAL_standard_all", ".csv"⟩
      ⟨"data", "GLOBAL_standard_new", ".csv"⟩ [[("title", "E")]]
      STANDARD_FIELDS "uid" false).count = 1 ∧
    (write_incremental_csv (FS.mk []) ⟨"data", "GLOBAL_standard_all", ".csv"⟩
      ⟨"data", "GLOBAL_standard_new", ".csv"⟩ [[("title", "E")], [("title", "E")]]
      STANDARD_FIELDS "uid" false).count = 2 :=
  ⟨rfl, rfl, rfl, rfl⟩

theorem mem_keys_of_serialized (fields : List String) (r : StrRow)
    (dataRows : List (List String)) (hu : "uid" ∈ fields)
    (hne : rowUid fields r ≠ "")
    (hrow : serializeRow fields (cleanRow fields r) ∈ dataRows) :
    rowUid fields r ∈ (load_existing_keys (some (fields :: dataRows))).1 := by
  have hstrip : stripField fields (serializeRow fields (cleanRow fields r)) "uid" =
      rowUid fields r := by
    unfold stripField
    rw [strZipGet_serializeRow fields _ "uid" hu]
    simp only [Option.getD_some]
    exact rowUid_strip fields r hu
  have hcont : fields.contains "uid" = true := List.elem_iff.mpr hu
  have hmem := mem_load_keys fields dataRows _ hcont hrow
    (by rw [hstrip]; exact hne)
  rwa [hstrip] at hmem

/-- C5 (amended): with `dedupe_by="uid"`, among rows whose sanitized uid is
non-empty the writer never appends a row whose uid is already in the
history's loaded key set and never appends two rows with the same uid
within one batch; and for a batch of rows with non-empty, pairwise-distinct
uids that are fresh with respect to a history file that is absent, empty,
or headed exactly by the schema, calling the writer twice returns `N` then
`0` and grows the history's row count by exactly `N`.  (The unrestricted
claim fails for empty uids — see the counterexample.) -/
theorem uid_dedupe_and_idempotence (fs : FS) (all_csv new_csv : CsvPath)
    (rows : List StrRow) (fields : List String) :
    ((∀ c ∈ filterRows fields "uid" rows
        (load_existing_keys (fs.read all_csv)).1
        (load_existing_keys (fs.read all_csv)).2,
        rowGet c "uid" ≠ "" →
          rowGet c "uid" ∉ (load_existing_keys (fs.read all_csv)).1) ∧
     (((filterRows fields "uid" rows (load_existing_keys (fs.read all_csv)).1
        (load_existing_keys (fs.read all_csv)).2).map
          (fun c => rowGet c "uid")).filter (fun u => u ≠ "")).Nodup) ∧
    (¬ all_csv = new_csv →
     "uid" ∈ fields →
     fields.map pyStripStr = fields →
     (fs.read all_csv = none ∨ fs.read all_csv = some [] ∨
       ∃ tl, fs.read all_csv = some (fields :: tl)) →
     (∀ r ∈ rows, rowUid fields r ≠ "") →
     (∀ r ∈ rows, rowUid fields r ∉ (load_existing_keys (fs.read all_csv)).1) →
     (rows.map (rowUid fields)).Nodup →
     ((write_incremental_csv fs all_csv new_csv rows fields "uid" false).count =
        rows.length ∧
      write_incremental_csv
        (write_incremental_csv fs all_csv new_csv rows fields "uid" false).fs
        all_csv new_csv rows fields "uid" false =
        ⟨(write_incremental_csv fs all_csv new_csv rows fields "uid" false).fs,
          0, none, none⟩ ∧
      histRowCount
        (write_incremental_csv fs all_csv new_csv rows fields "uid" false).fs
        all_csv = histRowCount fs all_csv + rows.length)) := by
  refine ⟨⟨filterRows_fresh fields rows _ _, filterRows_nodup fields rows _ _⟩, ?_⟩
  intro hpath hu hstrip hist h1 h2 h3
  have hkept : filterRows fields "uid" rows
      (load_existing_keys (fs.read all_csv)).1
      (load_existing_keys (fs.read all_csv)).2 = rows.map (cleanRow fields) :=
    filterRows_all_kept fields rows _ _ h2 h3
  by_cases hrows : rows = []
  · subst hrows
    have hfil0 : filterRows fields "uid" ([] : List StrRow)
        (load_existing_keys (fs.read all_csv)).1
        (load_existing_keys (fs.read all_csv)).2 = [] := rfl
    rw [no_write_when_all_duplicates fs all_csv new_csv [] fields "uid" false hfil0]
    exact ⟨rfl, by rw [no_write_when_all_duplicates fs all_csv new_csv [] fields
      "uid" false hfil0], by simp⟩
  · have hfilne : filterRows fields "uid" rows
        (load_existing_keys (fs.read all_csv)).1
        (load_existing_keys (fs.read all_csv)).2 ≠ [] := by
      rw [hkept]
      simp [hrows]
    -- one shared second-call argument, parametrized by the new history data
    have key2 : ∀ dataRows : List (List String),
        (∀ r ∈ rows, serializeRow fields (cleanRow fields r) ∈ dataRows) →
        (write_incremental_csv fs all_csv new_csv rows fields "uid" false).fs.read
            all_csv = some (fields :: dataRows) →
        write_incremental_csv
          (write_incremental_csv fs all_csv new_csv rows fields "uid" false).fs
          all_csv new_csv rows fields "uid" false =
          ⟨(write_incremental_csv fs all_csv new_csv rows fields "uid" false).fs,
            0, none, none⟩ := by
      intro dataRows hser hread
      apply no_write_when_all_duplicates
      apply filterRows_all_dropped
      intro r hr
      refine ⟨h1 r hr, ?_⟩
      rw [hread]
      exact mem_keys_of_serialized fields r dataRows hu (h1 r hr) (hser r hr)
    rcases hist with h | h | ⟨tl, h⟩
    · obtain ⟨hread, hcount⟩ := write_run_empty_history fs all_csv new_csv rows
        fields "uid" false hpath (Or.inl h) hfilne
      rw [hkept] at hread hcount
      refine ⟨by rw [hcount, List.length_map], ?_, ?_⟩
      · exact key2 _ (fun r hr => List.mem_map_of_mem _
          (List.mem_map_of_mem _ hr)) hread
      · unfold histRowCount
        rw [hread, h]
        simp
    · obtain ⟨hread, hcount⟩ := write_run_empty_history fs all_csv new_csv rows
        fields "uid" false hpath (Or.inr h) hfilne
      rw [hkept] at hread hcount
      refine ⟨by rw [hcount, List.length_map], ?_, ?_⟩
      · exact key2 _ (fun r hr => List.mem_map_of_mem _
          (List.mem_map_of_mem _ hr)) hread
      · unfold histRowCount
        rw [hread, h]
        simp
    · obtain ⟨hread, hcount⟩ := write_run_matching_history fs all_csv new_csv rows
        fields "uid" false tl hpath h hstrip hfilne
      rw [hkept] at hread hcount
      refine ⟨by rw [hcount, List.length_map], ?_, ?_⟩
      · refine key2 _ (fun r hr => List.mem_append_right _
          (List.mem_map_of_mem _ (List.mem_map_of_mem _ hr))) hread
      · unfold histRowCount
        rw [hread, h]
        simp

/-- C5 witness: two fresh rows with distinct non-empty uids written onto an
empty ledger: the first call accepts both, the second call accepts none and
leaves the filesystem untouched, and the history gained exactly two rows. -/
theorem uid_dedupe_and_idempotence_witness :
    ("uid" ∈ STANDARD_FIELDS ∧
      (∀ r ∈ [[("uid", "u1"), ("title", "T1")], [("uid", "u2"), ("title", "T2")]],
        rowUid STANDARD_FIELDS r ≠ "")) ∧
    (write_incremental_csv (FS.mk []) ⟨"data", "GLOBAL_standard_all", ".csv"⟩
      ⟨"data", "GLOBAL_standard_new", ".csv"⟩
      [[("uid", "u1"), ("title", "T1")], [("uid", "u2"), ("title", "T2")]]
      STANDARD_FIELDS "uid" false).count = 2 ∧
    write_incremental_csv
      (write_incremental_csv (FS.mk []) ⟨"data", "GLOBAL_standard_all", ".csv"⟩
        ⟨"data", "GLOBAL_standard_new", ".csv"⟩
        [[("uid", "u1"), ("title", "T1")], [("uid", "u2"), ("title", "T2")]]
        STANDARD_FIELDS "uid" false).fs
      ⟨"data", "GLOBAL_standard_all", ".csv"⟩
      ⟨"data", "GLOBAL_standard_new", ".csv"⟩
      [[("uid", "u1"), ("title", "T1")], [("uid", "u2"), ("title", "T2")]]
      STANDARD_FIELDS "uid" false =
      ⟨(write_incremental_csv (FS.mk []) ⟨"data", "GLOBAL_standard_all", ".csv"⟩
        ⟨"data", "GLOBAL_standard_new", ".csv"⟩
        [[("uid", "u1"), ("title", "T1")], [("uid", "u2"), ("title", "T2")]]
        STANDARD_FIELDS "uid" false).fs, 0, none, none⟩ ∧
    histRowCount
      (write_incremental_csv (FS.mk []) ⟨"data", "GLOBAL_standard_all", ".csv"⟩
        ⟨"data", "GLOBAL_standard_new", ".csv"⟩
        [[("uid", "u1"), ("title", "T1")], [("uid", "u2"), ("title", "T2")]]
        STANDARD_FIELDS "uid" false).fs ⟨"data", "GLOBAL_standard_all", ".csv"⟩ =
      histRowCount (FS.mk []) ⟨"data", "GLOBAL_standard_all", ".csv"⟩ + 2 := by
  have hmain := (uid_dedupe_and_idempotence (FS.mk [])
    ⟨"data", "GLOBAL_standard_all", ".csv"⟩
    ⟨"data", "GLOBAL_standard_new", ".csv"⟩
    [[("uid", "u1"), ("title", "T1")], [("uid", "u2"), ("title", "T2")]]
    STANDARD_FIELDS).2 (by decide) (by decide) (by rfl) (Or.inl rfl)
    (by decide) (by decide) (by decide)
  exact ⟨⟨by decide, by decide⟩, hmain.1, hmain.2.1, hmain.2.2⟩

/-- C3 witness: with both clients down on a keyword-matching record, the
alert flag is set and the verdict is the `"ERROR"` sentinel. -/
theorem alert_iff_both_connections_failed_witness :
    (assess_relevance (fun _ => none) (fun _ => none) "cbdc" "" "").1.alert_needed =
      some true ∧
    (assess_relevance (fun _ => none) (fun _ => none) "cbdc" "" "").1.is_relevant =
      PyVal.pstr "ERROR" := by
  have h := alert_iff_both_connections_failed (fun _ => none) (fun _ => none)
    "cbdc" "" ""
  have ha := h.1.mpr ⟨by rfl, rfl, rfl⟩
  exact ⟨ha, h.2 ha⟩

/-- C6 counterexample: a history file whose header row is *blank* has a
header that does not match the expected column list, yet `if header and …`
treats the empty header as falsy, skips the redirect, and appends the
mismatched rows to the primary file (no `_v2` sibling is created). -/
theorem header_mismatch_blank_header_cex :
    ([] : List String).length ≠ STANDARD_FIELDS.length ∧
    (write_incremental_csv
      (FS.mk [(⟨"data", "GLOBAL_standard_all", ".csv"⟩, [[], ["x"]])])
      ⟨"data", "GLOBAL_standard_all", ".csv"⟩
      ⟨"data", "GLOBAL_standard_new", ".csv"⟩ [[("uid", "u1")]]
      STANDARD_FIELDS "uid" false).fs.read
      ⟨"data", "GLOBAL_standard_all", ".csv"⟩ =
      some [[], ["x"],
        ["u1", "", "", "", "", "", "", "", "", "", "", ""]] ∧
    (write_incremental_csv
      (FS.mk [(⟨"data", "GLOBAL_standard_all", ".csv"⟩, [[], ["x"]])])
      ⟨"data", "GLOBAL_standard_all", ".csv"⟩
      ⟨"data", "GLOBAL_standard_new", ".csv"⟩ [[("uid", "u1")]]
      STANDARD_FIELDS "uid" false).fs.read
      (withV2 ⟨"data", "GLOBAL_standard_all", ".csv"⟩) = none :=
  ⟨by decide, by rfl, by rfl⟩
